import Mathlib

/-!
Verification development for the Lovshot frontend (TypeScript sources under
src/).  The definitions below are a shallow embedding of the code in
App.tsx, Selector.tsx, ScrollOverlay.tsx and the useAnnotationEditor hook:
pure functions become Lean functions, React state updates become explicit
state-passing, and the event/effect machinery becomes a step function over
an explicit event type.  Numbers that are JavaScript numbers holding pixel
coordinates are modelled as rationals; frame counts and indices as integers
or naturals as the code uses them.
-/

namespace Lovshot

/-- Mirror of the AppMode union type in App.tsx:
"idle" | "recording" | "editing" | "exporting". -/
inductive Mode where
  | idle
  | recording
  | editing
  | exporting
deriving DecidableEq, Repr

/-- Mirror of the RecordingInfo interface in App.tsx. -/
structure RecordingInfo where
  frame_count : ℕ
  width : ℕ
  height : ℕ
  fps : ℕ
  duration_ms : ℕ
  has_frames : Bool
deriving DecidableEq, Repr

/-- Mirror of the ExportConfig interface in App.tsx.  Frame indices are
integers because the drag handlers compute end_frame - 1 and
start_frame + 1 with JavaScript numbers. -/
structure ExportConfig where
  start_frame : ℤ
  end_frame : ℤ
  output_scale : ℚ
  target_fps : ℕ
  loop_mode : String
deriving DecidableEq, Repr

/-- Mirror of the SizeEstimate interface in App.tsx. -/
structure SizeEstimate where
  frame_count : ℕ
  output_width : ℕ
  output_height : ℕ
  estimated_bytes : ℕ
  formatted : String
deriving DecidableEq, Repr

/-- Mirror of the SaveResult interface in App.tsx (payload of the
export-complete event). -/
structure SaveResult where
  success : Bool
  path : Option String
  error : Option String
deriving DecidableEq, Repr

/-- Mirror of the ExportProgress interface in App.tsx. -/
structure ExportProgress where
  current : ℕ
  total : ℕ
  stage : String
deriving DecidableEq, Repr

/-- The initial ExportConfig installed by the recording-stopped listener in
App.tsx (lines 138-144): start_frame 0, end_frame info.frame_count,
output_scale 1, target_fps 10, loop_mode "infinite". -/
def initialExportConfig (n : ℤ) : ExportConfig :=
  { start_frame := 0
    end_frame := n
    output_scale := 1
    target_fps := 10
    loop_mode := "infinite" }

/-- The spec invariant on an ExportConfig against a recording of n frames:
0 ≤ start_frame < end_frame ≤ n. -/
def exportInvariant (c : ExportConfig) (n : ℤ) : Prop :=
  0 ≤ c.start_frame ∧ c.start_frame < c.end_frame ∧ c.end_frame ≤ n

instance (c : ExportConfig) (n : ℤ) : Decidable (exportInvariant c n) := by
  unfold exportInvariant; infer_instance

/-- getFrameFromX in App.tsx (lines 216-221): clamp the cursor's relative
position in the filmstrip to [0,1] and round ratio * frame_count.
rectLeft and rectWidth are the filmstrip's bounding rectangle; the code's
early return 0 when the ref or info is missing corresponds to the callers
below only being reachable with both present. -/
def getFrameFromX (rectLeft rectWidth clientX : ℚ) (frameCount : ℕ) : ℤ :=
  let ratio := max 0 (min 1 ((clientX - rectLeft) / rectWidth))
  round (ratio * (frameCount : ℚ))

/-- The start-handle branch of handleMouseMove in App.tsx (lines 235-237):
newStart = max(0, min(frame, end_frame - 1)). -/
def dragStartUpdate (c : ExportConfig) (frame : ℤ) : ExportConfig :=
  { c with start_frame := max 0 (min frame (c.end_frame - 1)) }

/-- The end-handle branch of handleMouseMove in App.tsx (lines 238-240):
newEnd = min(frame_count, max(frame, start_frame + 1)). -/
def dragEndUpdate (c : ExportConfig) (frameCount : ℤ) (frame : ℤ) : ExportConfig :=
  { c with end_frame := min frameCount (max frame (c.start_frame + 1)) }

/-- handleMouseMove for the start handle, frame computed by getFrameFromX. -/
def handleMouseMoveStart (c : ExportConfig) (rectLeft rectWidth clientX : ℚ)
    (frameCount : ℕ) : ExportConfig :=
  dragStartUpdate c (getFrameFromX rectLeft rectWidth clientX frameCount)

/-- handleMouseMove for the end handle, frame computed by getFrameFromX. -/
def handleMouseMoveEnd (c : ExportConfig) (rectLeft rectWidth clientX : ℚ)
    (frameCount : ℕ) : ExportConfig :=
  dragEndUpdate c (frameCount : ℤ) (getFrameFromX rectLeft rectWidth clientX frameCount)

/-- Mirror of the ResolutionPreset interface in App.tsx (label dropped to
its numeric content; the label string is purely cosmetic). -/
structure ResolutionPreset where
  height : ℕ
  scale : ℚ
deriving DecidableEq, Repr

/-- The standard heights list in App.tsx resolutionPresets (lines 92-98). -/
def standardHeights : List ℕ := [1080, 720, 480, 360, 240]

/-- resolutionPresets in App.tsx (lines 83-113): empty without recording
info; otherwise the original-size preset with scale 1 followed by one
preset per standard height strictly below the recording height, with
scale h / height. -/
def resolutionPresets (info : Option RecordingInfo) : List ResolutionPreset :=
  match info with
  | none => []
  | some i =>
    ⟨i.height, 1⟩ ::
      (standardHeights.filter (fun h => h < i.height)).map
        (fun h => ⟨h, (h : ℚ) / (i.height : ℚ)⟩)

/-- The React state of the App component in App.tsx (lines 56-80) that the
claims are about: mode, frameCount, savedPath, recordingInfo, exportConfig,
sizeEstimate, filmstrip, exportProgress. -/
structure AppState where
  mode : Mode
  frameCount : ℕ
  savedPath : String
  recordingInfo : Option RecordingInfo
  exportConfig : ExportConfig
  sizeEstimate : Option SizeEstimate
  filmstrip : List String
  exportProgress : Option ExportProgress
deriving DecidableEq, Repr

/-- The initial App state: useState initialisers in App.tsx lines 57-80. -/
def initApp : AppState :=
  { mode := .idle
    frameCount := 0
    savedPath := ""
    recordingInfo := none
    exportConfig :=
      { start_frame := 0, end_frame := 0, output_scale := 1,
        target_fps := 10, loop_mode := "infinite" }
    sizeEstimate := none
    filmstrip := []
    exportProgress := none }

/-- The inputs that drive the App component: the four backend events its
listeners subscribe to (recording-state, recording-stopped with the result
of the get_recording_info invoke, export-complete, export-progress), the
asynchronous results of the filmstrip and size-estimate invokes, and the
user actions reachable through the rendered buttons.  exportInvokeFailed
is the catch branch of handleExport, delivered after exportClick when the
export_gif invoke rejects. -/
inductive AppEv where
  | recordingState (isRec : Bool) (k : ℕ)
  | recordingStopped (info : Option RecordingInfo)
  | exportComplete (r : SaveResult)
  | exportProgressEv (p : ExportProgress)
  | filmstripLoaded (thumbs : List String)
  | estimateResult (est : SizeEstimate)
  | stopClick
  | exportClick
  | exportInvokeFailed
  | discardClick
deriving DecidableEq, Repr

/-- Backend commands the App component invokes. -/
inductive AppCmd where
  | stopRecording
  | exportGif
  | discardRecording
  | getRecordingInfo
  | getFilmstrip
  | estimateExportSize
deriving DecidableEq, Repr

/-- One step of the App component: the state after handling one input,
paired with the backend commands it invokes, transcribed from the event
listeners (App.tsx lines 126-184) and the handlers
handleStopRecording / handleExport / handleDiscard (lines 193-213).
User actions are guarded by the render conditions of the buttons that
trigger them (Stop renders only while recording; Export and Discard only
in editing with recordingInfo present). -/
def stepFullApp (s : AppState) (e : AppEv) : AppState × List AppCmd :=
  match e with
  | .recordingState isRec k =>
    if isRec then ({ s with mode := .recording, frameCount := k }, []) else (s, [])
  | .recordingStopped res =>
    match res with
    | some info =>
      ({ s with recordingInfo := some info
                exportConfig := initialExportConfig (info.frame_count : ℤ)
                mode := .editing },
        [.getRecordingInfo, .estimateExportSize] ++
          (if 0 < info.frame_count then [.getFilmstrip] else []))
    | none => ({ s with mode := .idle }, [.getRecordingInfo])
  | .exportComplete r =>
    ({ s with mode := .idle
              recordingInfo := none
              sizeEstimate := none
              filmstrip := []
              exportProgress := none
              savedPath :=
                match r.path with
                | some p => if r.success && p ≠ "" then p else s.savedPath
                | none => s.savedPath },
      [])
  | .exportProgressEv p => ({ s with exportProgress := some p }, [])
  | .filmstripLoaded thumbs => ({ s with filmstrip := thumbs }, [])
  | .estimateResult est => ({ s with sizeEstimate := some est }, [])
  | .stopClick =>
    if s.mode = .recording then (s, [.stopRecording]) else (s, [])
  | .exportClick =>
    if s.mode = .editing ∧ s.recordingInfo.isSome
    then ({ s with mode := .exporting }, [.exportGif])
    else (s, [])
  | .exportInvokeFailed => ({ s with mode := .editing }, [])
  | .discardClick =>
    if s.mode = .editing ∧ s.recordingInfo.isSome
    then ({ s with mode := .idle
                   recordingInfo := none
                   sizeEstimate := none
                   filmstrip := [] },
           [.discardRecording])
    else (s, [])

/-- State part of one App step. -/
def stepApp (s : AppState) (e : AppEv) : AppState :=
  (stepFullApp s e).1

/-- The App state after a sequence of inputs from the initial state. -/
def runApp (evs : List AppEv) : AppState :=
  evs.foldl stepApp initApp

/-- Modelled from the spec: the session lifecycle of section 4.1,
"idle → recording → stopped → (editing | exporting) → idle", projected
onto the code's four UI modes (the code has no distinct stopped mode;
recording transitions directly to editing, and the (editing | exporting)
stage admits moving from editing into exporting).  A non-change of mode is
not a transition. -/
def lifecycleOk (a b : Mode) : Bool :=
  a = b ||
    (match a, b with
     | .idle, .recording => true
     | .recording, .editing => true
     | .recording, .exporting => true
     | .editing, .exporting => true
     | .editing, .idle => true
     | .exporting, .idle => true
     | _, _ => false)

/-- The lifecycle the code actually guarantees: the spec lifecycle plus the
two error-return transitions present in App.tsx — recording → idle when
get_recording_info fails in the recording-stopped listener (line 156), and
exporting → editing when the export_gif invoke rejects (line 203). -/
def amendedLifecycleOk (a b : Mode) : Bool :=
  lifecycleOk a b ||
    (match a, b with
     | .recording, .idle => true
     | .exporting, .editing => true
     | _, _ => false)

/-- The delivery discipline under which the amended lifecycle claim holds:
each backend event arrives only in a mode that expects it.  recording-state
with is_recording set arrives while idle or recording; recording-stopped
while recording; export-complete and the export invoke rejection while
exporting.  The remaining inputs either change no mode or are guarded by
the render conditions already encoded in stepFullApp. -/
def expectedEv (s : AppState) (e : AppEv) : Prop :=
  match e with
  | .recordingState isRec _ =>
    isRec = true → (s.mode = .idle ∨ s.mode = .recording)
  | .recordingStopped _ => s.mode = .recording
  | .exportComplete _ => s.mode = .exporting
  | .exportInvokeFailed => s.mode = .exporting
  | _ => True

instance (s : AppState) (e : AppEv) : Decidable (expectedEv s e) := by
  unfold expectedEv; cases e <;> infer_instance

/-- Mirror of the SelectionRect interface in Selector.tsx.  Coordinates are
rationals standing for JavaScript pixel numbers. -/
structure SelectionRect where
  x : ℚ
  y : ℚ
  w : ℚ
  h : ℚ
deriving DecidableEq, Repr

/-- Mirror of the Region record built in doCapture (Selector.tsx
lines 48-53): the Math.round of each rectangle component. -/
structure Region where
  x : ℤ
  y : ℤ
  width : ℤ
  height : ℤ
deriving DecidableEq, Repr

/-- handleMouseUp in Selector.tsx (lines 111-132): from the drag start
point and the release point, form the normalised rectangle; confirm it
(setSelectionRect) exactly when both its width and height exceed 10,
otherwise leave no selection. -/
def handleMouseUpRect (startX startY clientX clientY : ℚ) : Option SelectionRect :=
  if 10 < |clientX - startX| ∧ 10 < |clientY - startY| then
    some ⟨min clientX startX, min clientY startY,
          |clientX - startX|, |clientY - startY|⟩
  else none

/-- The region doCapture passes to set_region / save_screenshot /
start_recording (Selector.tsx lines 48-53). -/
def regionOfRect (r : SelectionRect) : Region :=
  ⟨round r.x, round r.y, round r.w, round r.h⟩

/-- doCapture in Selector.tsx (lines 45-70) restricted to its region
computation: returns early with no invocation when there is no confirmed
selection, otherwise rounds the selection into the Region it submits. -/
def doCaptureRegion (sel : Option SelectionRect) : Option Region :=
  sel.map regionOfRect

/-- The OutputScale union type and the screenshot scale select options in
Selector.tsx (line 6 and lines 208-219): 1, 0.75, 0.5, 0.25. -/
def screenshotScaleOptions : List ℚ := [1, 3/4, 1/2, 1/4]

/-- Mirror of the ScrollCaptureProgress interface in ScrollOverlay.tsx. -/
structure ScrollCaptureProgress where
  frame_count : ℕ
  total_height : ℕ
  preview_base64 : String
deriving DecidableEq, Repr

/-- The body of pollCapture in ScrollOverlay.tsx (lines 53-64) as a state
update: the displayed progress after one capture_scroll_frame_auto result —
a non-null result replaces the progress, a null result leaves it as is. -/
def pollApply (progress : Option ScrollCaptureProgress)
    (result : Option ScrollCaptureProgress) : Option ScrollCaptureProgress :=
  match result with
  | some r => some r
  | none => progress

/-- The ScrollOverlay component state: its three useState hooks, the
isClosingRef guard, whether the polling effect currently has an interval
installed, and instrumentation counting the cancel_scroll_capture and
capture_scroll_frame_auto invocations. -/
structure OverlayState where
  progress : Option ScrollCaptureProgress
  isStopped : Bool
  pollingEnabled : Bool
  isClosing : Bool
  intervalActive : Bool
  cancelCount : ℕ
  captureCount : ℕ
deriving DecidableEq, Repr

/-- Initial ScrollOverlay state (ScrollOverlay.tsx lines 16-19) after the
mount run of the polling effect: no progress yet, not stopped, polling
enabled, not closing; the effect installs the interval since isStopped is
false and pollingEnabled is true. -/
def initOverlay : OverlayState :=
  { progress := none
    isStopped := false
    pollingEnabled := true
    isClosing := false
    intervalActive := true
    cancelCount := 0
    captureCount := 0 }

/-- Inputs that drive the ScrollOverlay component.  closeTrigger covers in
one constructor every path that calls closeAndCancel: the close button's
handleCancel, the local Escape key listener, and the global
scroll-capture-stop event.  pollTick is one firing of the polling interval
with the result of capture_scroll_frame_auto (null modelled as none). -/
inductive OverlayEv where
  | previewUpdate (p : ScrollCaptureProgress)
  | listenerStarted
  | listenerFailed
  | pollTick (result : Option ScrollCaptureProgress)
  | stopClick
  | closeTrigger
deriving DecidableEq, Repr

/-- Whether the polling effect installs its interval for the current state:
the effect (ScrollOverlay.tsx lines 47-77) returns before setInterval when
isStopped holds or pollingEnabled does not. -/
def effectInterval (isStopped pollingEnabled : Bool) : Bool :=
  !isStopped && pollingEnabled

/-- One step of the ScrollOverlay component, transcribed from
ScrollOverlay.tsx.  previewUpdate is the scroll-preview-update listener
(lines 22-27); listenerStarted / listenerFailed flip pollingEnabled
(lines 30-44); a state change in any dependency re-runs the polling effect,
re-deriving whether the interval is installed.  pollTick performs one
pollCapture (lines 53-64) and only happens while the interval is
installed.  stopClick is handleStop (lines 124-130): invoke
stop_scroll_capture, set isStopped, after which the effect cleanup removes
the interval.  closeTrigger is closeAndCancel (lines 80-90): a no-op when
isClosingRef is already set, otherwise it sets the guard and invokes
cancel_scroll_capture. -/
def stepOverlay (s : OverlayState) (e : OverlayEv) : OverlayState :=
  match e with
  | .previewUpdate p =>
    { s with progress := some p
             intervalActive := effectInterval s.isStopped s.pollingEnabled }
  | .listenerStarted =>
    { s with pollingEnabled := false
             intervalActive := effectInterval s.isStopped false }
  | .listenerFailed =>
    { s with pollingEnabled := true
             intervalActive := effectInterval s.isStopped true }
  | .pollTick result =>
    if s.intervalActive then
      { s with captureCount := s.captureCount + 1
               progress := pollApply s.progress result
               intervalActive := effectInterval s.isStopped s.pollingEnabled }
    else s
  | .stopClick =>
    if s.isStopped then s
    else { s with isStopped := true, intervalActive := false }
  | .closeTrigger =>
    if s.isClosing then s
    else { s with isClosing := true, cancelCount := s.cancelCount + 1 }

/-- The ScrollOverlay state after a sequence of inputs from mount. -/
def runOverlay (evs : List OverlayEv) : OverlayState :=
  evs.foldl stepOverlay initOverlay

/-- MAX_HISTORY in useAnnotationEditor (permission-main.tsx part). -/
def MAX_HISTORY : ℕ := 50

/-- The history mechanism of useAnnotationEditor: the annotations state,
the historyRef array of annotation lists, and the historyIndexRef index.
Annotations are kept abstract (α): the history mechanism never inspects
them. -/
structure EditorState (α : Type) where
  annotations : List α
  history : List (List α)
  index : ℕ
deriving DecidableEq, Repr

/-- The initial editor history state: annotations [], historyRef [[]],
historyIndexRef 0 (also the state reset installs). -/
def initEditor {α : Type} : EditorState α :=
  { annotations := [], history := [[]], index := 0 }

/-- pushHistory in useAnnotationEditor: apply the updater to the current
annotations, truncate the history after the current index, push the new
list; if the history would exceed MAX_HISTORY drop its oldest entry and
leave the index where it is, otherwise point the index at the new last
entry. -/
def pushHistory {α : Type} (updater : List α → List α) (s : EditorState α) :
    EditorState α :=
  let newAnnotations := updater s.annotations
  let newHistory := s.history.take (s.index + 1) ++ [newAnnotations]
  if MAX_HISTORY < newHistory.length then
    { annotations := newAnnotations
      history := newHistory.drop 1
      index := s.index }
  else
    { annotations := newAnnotations
      history := newHistory
      index := newHistory.length - 1 }

/-- undo in useAnnotationEditor: when the index is positive, move it one
step back and restore the annotation list stored there. -/
def undoEditor {α : Type} (s : EditorState α) : EditorState α :=
  if 0 < s.index then
    { annotations := s.history.getD (s.index - 1) []
      history := s.history
      index := s.index - 1 }
  else s

/-- redo in useAnnotationEditor: when the index is before the last history
entry, move it one step forward and restore the annotation list stored
there. -/
def redoEditor {α : Type} (s : EditorState α) : EditorState α :=
  if s.index + 1 < s.history.length then
    { annotations := s.history.getD (s.index + 1) []
      history := s.history
      index := s.index + 1 }
  else s

/-- The editor history states reachable through the hook's operations:
the initial state (also what reset installs), and closure under
pushHistory (hence addAnnotation, updateAnnotation, deleteAnnotation),
undo and redo. -/
inductive EditorReachable {α : Type} : EditorState α → Prop where
  | init : EditorReachable initEditor
  | push (updater : List α → List α) (s : EditorState α) :
      EditorReachable s → EditorReachable (pushHistory updater s)
  | undo (s : EditorState α) :
      EditorReachable s → EditorReachable (undoEditor s)
  | redo (s : EditorState α) :
      EditorReachable s → EditorReachable (redoEditor s)

/-! Theorems about the claims. -/

/-- C1, counterexample: the claim as stated fails for a recording with
frame_count 0 — the initial config installed by the recording-stopped
listener is then start_frame 0, end_frame 0, which violates
start_frame < end_frame. -/
theorem C1_counterexample : ¬ exportInvariant (initialExportConfig 0) 0 := by
  decide

/-- C1 (amended): for every recording with frame_count n ≥ 1, the initial
ExportConfig installed on recording-stopped satisfies
0 ≤ start_frame < end_frame ≤ n, and every filmstrip drag-handle update
(either handle, any cursor position over any filmstrip rectangle)
preserves the invariant. -/
theorem C1_export_invariant (n : ℕ) (c : ExportConfig)
    (rectLeft rectWidth clientX : ℚ) (hn : 1 ≤ n)
    (hc : exportInvariant c (n : ℤ)) :
    exportInvariant (initialExportConfig (n : ℤ)) (n : ℤ) ∧
    exportInvariant (handleMouseMoveStart c rectLeft rectWidth clientX n) (n : ℤ) ∧
    exportInvariant (handleMouseMoveEnd c rectLeft rectWidth clientX n) (n : ℤ) := by
  obtain ⟨h1, h2, h3⟩ := hc
  have hn' : (1 : ℤ) ≤ (n : ℤ) := by exact_mod_cast hn
  refine ⟨?_, ?_, ?_⟩
  · refine ⟨le_refl 0, ?_, le_refl _⟩
    simpa [initialExportConfig] using hn'
  · set f := getFrameFromX rectLeft rectWidth clientX n with hf
    refine ⟨?_, ?_, ?_⟩
    · exact le_max_left 0 _
    · show max 0 (min f (c.end_frame - 1)) < c.end_frame
      omega
    · exact h3
  · set f := getFrameFromX rectLeft rectWidth clientX n with hf
    refine ⟨h1, ?_, ?_⟩
    · show c.start_frame < min (n : ℤ) (max f (c.start_frame + 1))
      omega
    · exact min_le_left _ _

/-- C1 witness: the amended invariant at n = 5 with a concrete drag. -/
theorem C1_export_invariant_witness :
    exportInvariant (initialExportConfig ((5 : ℕ) : ℤ)) ((5 : ℕ) : ℤ) ∧
    exportInvariant
      (handleMouseMoveStart (initialExportConfig ((5 : ℕ) : ℤ)) 0 100 37 5)
      ((5 : ℕ) : ℤ) ∧
    exportInvariant
      (handleMouseMoveEnd (initialExportConfig ((5 : ℕ) : ℤ)) 0 100 37 5)
      ((5 : ℕ) : ℤ) :=
  C1_export_invariant 5 (initialExportConfig 5) 0 100 37 (by decide) (by decide)

/-- C3: for every export-complete event, whatever the success flag, the UI
transitions to idle and clears the recording info, size estimate,
filmstrip and export progress. -/
theorem C3_export_complete_terminal (s : AppState) (r : SaveResult) :
    (stepApp s (AppEv.exportComplete r)).mode = Mode.idle ∧
    (stepApp s (AppEv.exportComplete r)).recordingInfo = none ∧
    (stepApp s (AppEv.exportComplete r)).sizeEstimate = none ∧
    (stepApp s (AppEv.exportComplete r)).filmstrip = [] ∧
    (stepApp s (AppEv.exportComplete r)).exportProgress = none := by
  refine ⟨rfl, rfl, rfl, rfl, rfl⟩

/-- C6: one poll of capture_scroll_frame_auto updates the displayed
progress exactly when the result is non-null; a null result leaves it
unchanged. -/
theorem C6_poll_progress (p : Option ScrollCaptureProgress)
    (r : ScrollCaptureProgress) :
    pollApply p (some r) = some r ∧ pollApply p none = p := by
  exact ⟨rfl, rfl⟩

/-- C7: Discard from the editing state invokes discard_recording, returns
the mode to idle, and clears the recording info, size estimate and
filmstrip. -/
theorem C7_discard (s : AppState) (h1 : s.mode = Mode.editing)
    (h2 : s.recordingInfo.isSome = true) :
    (stepFullApp s AppEv.discardClick).1.mode = Mode.idle ∧
    (stepFullApp s AppEv.discardClick).1.recordingInfo = none ∧
    (stepFullApp s AppEv.discardClick).1.sizeEstimate = none ∧
    (stepFullApp s AppEv.discardClick).1.filmstrip = [] ∧
    AppCmd.discardRecording ∈ (stepFullApp s AppEv.discardClick).2 := by
  have hcond : s.mode = Mode.editing ∧ s.recordingInfo.isSome := ⟨h1, h2⟩
  simp only [stepFullApp, if_pos hcond]
  simp

/-- C7 witness: discard from a concrete editing state. -/
theorem C7_discard_witness :
    ((stepFullApp
        { initApp with mode := Mode.editing,
                       recordingInfo := some ⟨3, 100, 100, 10, 300, true⟩ }
        AppEv.discardClick).1.mode = Mode.idle ∧
      (stepFullApp
        { initApp with mode := Mode.editing,
                       recordingInfo := some ⟨3, 100, 100, 10, 300, true⟩ }
        AppEv.discardClick).1.recordingInfo = none ∧
      (stepFullApp
        { initApp with mode := Mode.editing,
                       recordingInfo := some ⟨3, 100, 100, 10, 300, true⟩ }
        AppEv.discardClick).1.sizeEstimate = none ∧
      (stepFullApp
        { initApp with mode := Mode.editing,
                       recordingInfo := some ⟨3, 100, 100, 10, 300, true⟩ }
        AppEv.discardClick).1.filmstrip = [] ∧
      AppCmd.discardRecording ∈
        (stepFullApp
          { initApp with mode := Mode.editing,
                         recordingInfo := some ⟨3, 100, 100, 10, 300, true⟩ }
          AppEv.discardClick).2) :=
  C7_discard
    { initApp with mode := Mode.editing,
                   recordingInfo := some ⟨3, 100, 100, 10, 300, true⟩ }
    rfl rfl

/-- A rational strictly above 10 rounds to a positive integer. -/
theorem round_pos_of_ten_lt {q : ℚ} (hq : 10 < q) : 0 < round q := by
  rw [round_eq]
  have h1 : (1 : ℤ) ≤ ⌊q + 1 / 2⌋ := by
    rw [Int.le_floor]
    push_cast
    linarith
  omega

/-- C4: a selector-confirmed selection always yields a submitted region
with strictly positive width and height, because handleMouseUp confirms a
rectangle only when both its width and height exceed 10 logical pixels and
doCapture rounds those dimensions. -/
theorem C4_selector_region_positive (startX startY clientX clientY : ℚ)
    (reg : Region)
    (h : doCaptureRegion (handleMouseUpRect startX startY clientX clientY) =
      some reg) :
    0 < reg.width ∧ 0 < reg.height := by
  by_cases hc : 10 < |clientX - startX| ∧ 10 < |clientY - startY|
  · simp only [doCaptureRegion, handleMouseUpRect, if_pos hc, Option.map_some]
      at h
    have hreg : reg = regionOfRect
        ⟨min clientX startX, min clientY startY,
          |clientX - startX|, |clientY - startY|⟩ := by
      exact (Option.some.injEq _ _ ▸ h).symm
    subst hreg
    exact ⟨round_pos_of_ten_lt hc.1, round_pos_of_ten_lt hc.2⟩
  · simp only [doCaptureRegion, handleMouseUpRect, if_neg hc, Option.map_none]
      at h
    exact absurd h (by simp)

/-- C4 witness: a concrete 20 by 20 drag produces a positive region. -/
theorem C4_selector_region_positive_witness :
    0 < (Region.mk 0 0 20 20).width ∧ 0 < (Region.mk 0 0 20 20).height :=
  C4_selector_region_positive 0 0 20 20 ⟨0, 0, 20, 20⟩ (by
    have hsel : handleMouseUpRect 0 0 20 20 = some ⟨0, 0, 20, 20⟩ := by
      rw [handleMouseUpRect, if_pos (by norm_num)]
      norm_num
    rw [doCaptureRegion, hsel]
    simp [regionOfRect, round_zero, round_ofNat])

/-- C5: every output scale the UI can submit lies in the interval (0, 1]:
every GIF resolution preset's scale is 1 or h / height with h a standard
height strictly below the recording height, and the screenshot scale
selector offers only 1, 0.75, 0.5 and 0.25. -/
theorem C5_output_scales (info : Option RecordingInfo) (p : ResolutionPreset)
    (q : ℚ) (hp : p ∈ resolutionPresets info)
    (hq : q ∈ screenshotScaleOptions) :
    (0 < p.scale ∧ p.scale ≤ 1) ∧ (0 < q ∧ q ≤ 1) := by
  constructor
  · match info with
    | none => simp [resolutionPresets] at hp
    | some i =>
      simp only [resolutionPresets, List.mem_cons, List.mem_map] at hp
      rcases hp with rfl | ⟨h, hmem, rfl⟩
      · norm_num
      · rw [List.mem_filter] at hmem
        obtain ⟨hstd, hlt⟩ := hmem
        have hlt' : h < i.height := by simpa using hlt
        have hposh : 0 < h := by
          simp only [standardHeights, List.mem_cons, List.not_mem_nil,
            or_false] at hstd
          rcases hstd with rfl | rfl | rfl | rfl | rfl <;> norm_num
        have hposH : 0 < i.height := lt_trans hposh hlt'
        have hq1 : (0 : ℚ) < (h : ℚ) := by exact_mod_cast hposh
        have hq2 : (0 : ℚ) < (i.height : ℚ) := by exact_mod_cast hposH
        have hq3 : (h : ℚ) ≤ (i.height : ℚ) := by
          exact_mod_cast le_of_lt hlt'
        exact ⟨div_pos hq1 hq2, (div_le_one hq2).2 hq3⟩
  · simp only [screenshotScaleOptions, List.mem_cons, List.not_mem_nil,
      or_false] at hq
    rcases hq with rfl | rfl | rfl | rfl <;> norm_num

/-- C5 witness: the original-size preset of a 100-pixel-high recording and
the 1x screenshot scale are both in (0, 1]. -/
theorem C5_output_scales_witness :
    (0 < (ResolutionPreset.mk 100 1).scale ∧
      (ResolutionPreset.mk 100 1).scale ≤ 1) ∧
    (0 < (1 : ℚ) ∧ (1 : ℚ) ≤ 1) :=
  C5_output_scales (some ⟨3, 160, 100, 10, 300, true⟩) ⟨100, 1⟩ 1
    (by simp [resolutionPresets, standardHeights]) (by decide)

/-- Invariant backing C8: before the first close trigger no cancel has
been invoked, and never more than one in total. -/
def overlayCancelInv (s : OverlayState) : Prop :=
  (s.isClosing = false → s.cancelCount = 0) ∧ s.cancelCount ≤ 1

/-- Every ScrollOverlay step preserves the cancel-count invariant. -/
theorem overlayCancelInv_step (s : OverlayState) (e : OverlayEv)
    (h : overlayCancelInv s) : overlayCancelInv (stepOverlay s e) := by
  obtain ⟨h0, h1⟩ := h
  cases e with
  | previewUpdate p => exact ⟨h0, h1⟩
  | listenerStarted => exact ⟨h0, h1⟩
  | listenerFailed => exact ⟨h0, h1⟩
  | pollTick r =>
    simp only [stepOverlay]
    split
    · exact ⟨h0, h1⟩
    · exact ⟨h0, h1⟩
  | stopClick =>
    simp only [stepOverlay]
    split
    · exact ⟨h0, h1⟩
    · exact ⟨h0, h1⟩
  | closeTrigger =>
    simp only [stepOverlay]
    split
    · exact ⟨h0, h1⟩
    · rename_i hcl
      refine ⟨fun hft => Bool.noConfusion hft, ?_⟩
      have hz : s.cancelCount = 0 := h0 (by simpa using hcl)
      show s.cancelCount + 1 ≤ 1
      omega

/-- The cancel-count invariant is preserved along any input sequence. -/
theorem overlayCancelInv_run (s : OverlayState) (evs : List OverlayEv)
    (h : overlayCancelInv s) :
    overlayCancelInv (evs.foldl stepOverlay s) := by
  induction evs generalizing s with
  | nil => exact h
  | cons e rest ih => exact ih _ (overlayCancelInv_step s e h)

/-- C8: over any execution of the scroll overlay — any interleaving of
close-button presses, local Escape keys, global scroll-capture-stop
events, preview updates, listener-mode switches, poll ticks and stop
clicks — cancel_scroll_capture is invoked at most once. -/
theorem C8_cancel_at_most_once (evs : List OverlayEv) :
    (runOverlay evs).cancelCount ≤ 1 :=
  (overlayCancelInv_run initOverlay evs ⟨fun _ => rfl, Nat.zero_le 1⟩).2

/-- Invariant backing C9: whenever the overlay is stopped, the polling
interval is not installed. -/
def overlayStoppedInv (s : OverlayState) : Prop :=
  s.isStopped = true → s.intervalActive = false

/-- Every ScrollOverlay step preserves the stopped-interval invariant. -/
theorem overlayStoppedInv_step (s : OverlayState) (e : OverlayEv)
    (h : overlayStoppedInv s) : overlayStoppedInv (stepOverlay s e) := by
  cases e with
  | previewUpdate p =>
    intro hs
    have : s.isStopped = true := hs
    simp [stepOverlay, effectInterval, this]
  | listenerStarted => intro hs; simp [stepOverlay, effectInterval]
  | listenerFailed =>
    intro hs
    have : s.isStopped = true := hs
    simp [stepOverlay, effectInterval, this]
  | pollTick r =>
    simp only [stepOverlay]
    split
    · intro hs
      have : s.isStopped = true := hs
      simp [effectInterval, this]
    · exact h
  | stopClick =>
    simp only [stepOverlay]
    split
    · exact h
    · intro hs; rfl
  | closeTrigger =>
    simp only [stepOverlay]
    split
    · exact h
    · exact h

/-- The stopped-interval invariant is preserved along any input
sequence. -/
theorem overlayStoppedInv_run (s : OverlayState) (evs : List OverlayEv)
    (h : overlayStoppedInv s) :
    overlayStoppedInv (evs.foldl stepOverlay s) := by
  induction evs generalizing s with
  | nil => exact h
  | cons e rest ih => exact ih _ (overlayStoppedInv_step s e h)

/-- Once stopped with the interval removed, every further step keeps the
overlay stopped, keeps the interval out, and performs no capture. -/
theorem overlayFrozen_step (s : OverlayState) (e : OverlayEv)
    (h1 : s.isStopped = true) (h2 : s.intervalActive = false) :
    (stepOverlay s e).isStopped = true ∧
    (stepOverlay s e).intervalActive = false ∧
    (stepOverlay s e).captureCount = s.captureCount := by
  cases e with
  | previewUpdate p =>
    exact ⟨h1, by simp [stepOverlay, effectInterval, h1], rfl⟩
  | listenerStarted =>
    exact ⟨h1, by simp [stepOverlay, effectInterval, h1], rfl⟩
  | listenerFailed =>
    exact ⟨h1, by simp [stepOverlay, effectInterval, h1], rfl⟩
  | pollTick r =>
    simp only [stepOverlay, h2]
    simp
    exact ⟨h1, h2⟩
  | stopClick =>
    simp only [stepOverlay, h1]
    simp
    exact ⟨h1, h2⟩
  | closeTrigger =>
    simp only [stepOverlay]
    split
    · exact ⟨h1, h2, rfl⟩
    · exact ⟨h1, h2, rfl⟩

/-- Capture count is frozen along any input sequence from a stopped state
with no interval installed. -/
theorem overlayFrozen_run (s : OverlayState) (evs : List OverlayEv)
    (h1 : s.isStopped = true) (h2 : s.intervalActive = false) :
    (evs.foldl stepOverlay s).captureCount = s.captureCount := by
  induction evs generalizing s with
  | nil => rfl
  | cons e rest ih =>
    obtain ⟨g1, g2, g3⟩ := overlayFrozen_step s e h1 h2
    calc (rest.foldl stepOverlay (stepOverlay s e)).captureCount
        = (stepOverlay s e).captureCount := ih _ g1 g2
      _ = s.captureCount := g3

/-- A stop click from a state satisfying the stopped-interval invariant
leaves the overlay stopped with no interval installed. -/
theorem overlayStop_frozen (s : OverlayState) (hinv : overlayStoppedInv s) :
    (stepOverlay s OverlayEv.stopClick).isStopped = true ∧
    (stepOverlay s OverlayEv.stopClick).intervalActive = false := by
  simp only [stepOverlay]
  by_cases h : s.isStopped = true
  · rw [if_pos h]
    exact ⟨h, hinv h⟩
  · rw [if_neg h]
    exact ⟨rfl, rfl⟩

/-- C9: after the user presses Stop in the scroll overlay, no later input
of any kind makes the overlay invoke capture_scroll_frame_auto again —
the capture count never changes past the stop click. -/
theorem C9_no_capture_after_stop (pre post : List OverlayEv) :
    (runOverlay (pre ++ OverlayEv.stopClick :: post)).captureCount =
    (runOverlay (pre ++ [OverlayEv.stopClick])).captureCount := by
  have hinv : overlayStoppedInv (runOverlay pre) :=
    overlayStoppedInv_run initOverlay pre (fun h => Bool.noConfusion h)
  have hmid : runOverlay (pre ++ [OverlayEv.stopClick]) =
      stepOverlay (runOverlay pre) OverlayEv.stopClick := by
    rw [runOverlay, List.foldl_append]
    rfl
  obtain ⟨g1, g2⟩ := overlayStop_frozen (runOverlay pre) hinv
  have hsplit : runOverlay (pre ++ OverlayEv.stopClick :: post) =
      post.foldl stepOverlay (runOverlay (pre ++ [OverlayEv.stopClick])) := by
    rw [runOverlay, runOverlay,
      show pre ++ OverlayEv.stopClick :: post =
        (pre ++ [OverlayEv.stopClick]) ++ post by simp,
      List.foldl_append]
  rw [hsplit]
  exact overlayFrozen_run _ post (by rw [hmid]; exact g1) (by rw [hmid]; exact g2)

/-- The mode of a mode-reflexive step is lifecycle-admissible. -/
theorem amendedLifecycleOk_refl (m : Mode) : amendedLifecycleOk m m = true := by
  cases m <;> rfl

/-- C2, counterexample: the claim fails on an adversarial but type-correct
event ordering — from a reachable editing state, a recording-state event
with is_recording set moves the mode editing → recording, a transition the
lifecycle idle → recording → stopped → (editing | exporting) → idle does
not contain. -/
theorem C2_counterexample :
    (runApp [AppEv.recordingState true 3,
      AppEv.recordingStopped (some ⟨3, 100, 100, 10, 300, true⟩)]).mode =
        Mode.editing ∧
    (stepApp
      (runApp [AppEv.recordingState true 3,
        AppEv.recordingStopped (some ⟨3, 100, 100, 10, 300, true⟩)])
      (AppEv.recordingState true 5)).mode = Mode.recording ∧
    lifecycleOk Mode.editing Mode.recording = false := by
  exact ⟨rfl, rfl, rfl⟩

/-- C2 (amended): the UI mode starts in idle, and when each backend event
arrives only in a mode that expects it (recording-state with is_recording
in idle or recording, recording-stopped in recording, export-complete and
the export_gif rejection in exporting), every mode change follows the
lifecycle idle → recording → editing → exporting → idle (stopped is not a
distinct UI mode: recording moves directly to editing, and editing may
move to exporting or to idle), except that a get_recording_info failure on
recording-stopped returns recording → idle and an export_gif invocation
rejection returns exporting → editing. -/
theorem C2_mode_lifecycle (s : AppState) (e : AppEv) (h : expectedEv s e) :
    initApp.mode = Mode.idle ∧
    amendedLifecycleOk s.mode (stepApp s e).mode = true := by
  refine ⟨rfl, ?_⟩
  cases e with
  | recordingState isRec k =>
    cases isRec with
    | false => exact amendedLifecycleOk_refl s.mode
    | true =>
      rcases h rfl with hm | hm <;>
        · rw [hm]
          rfl
  | recordingStopped res =>
    have hm : s.mode = Mode.recording := h
    cases res with
    | some info => rw [hm]; rfl
    | none => rw [hm]; rfl
  | exportComplete r =>
    have hm : s.mode = Mode.exporting := h
    rw [hm]
    rfl
  | exportProgressEv p => exact amendedLifecycleOk_refl s.mode
  | filmstripLoaded thumbs => exact amendedLifecycleOk_refl s.mode
  | estimateResult est => exact amendedLifecycleOk_refl s.mode
  | stopClick =>
    show amendedLifecycleOk s.mode (stepFullApp s AppEv.stopClick).1.mode = true
    simp only [stepFullApp]
    split
    · exact amendedLifecycleOk_refl s.mode
    · exact amendedLifecycleOk_refl s.mode
  | exportClick =>
    show amendedLifecycleOk s.mode (stepFullApp s AppEv.exportClick).1.mode = true
    simp only [stepFullApp]
    split
    · rename_i hcond
      rw [hcond.1]
      rfl
    · exact amendedLifecycleOk_refl s.mode
  | exportInvokeFailed =>
    have hm : s.mode = Mode.exporting := h
    rw [hm]
    rfl
  | discardClick =>
    show amendedLifecycleOk s.mode (stepFullApp s AppEv.discardClick).1.mode = true
    simp only [stepFullApp]
    split
    · rename_i hcond
      rw [hcond.1]
      rfl
    · exact amendedLifecycleOk_refl s.mode

/-- C2 witness: the first lifecycle transition, idle → recording, on the
initial state. -/
theorem C2_mode_lifecycle_witness :
    initApp.mode = Mode.idle ∧
    amendedLifecycleOk initApp.mode
      (stepApp initApp (AppEv.recordingState true 2)).mode = true :=
  C2_mode_lifecycle initApp (AppEv.recordingState true 2)
    (fun _ => Or.inl rfl)

/-- Invariant of the annotation history: the index is in bounds, the
history never exceeds MAX_HISTORY entries, and the entry at the index is
the current annotation list. -/
def editorInv {α : Type} (s : EditorState α) : Prop :=
  s.index < s.history.length ∧ s.history.length ≤ MAX_HISTORY ∧
    s.history.getD s.index [] = s.annotations

/-- pushHistory preserves the history invariant. -/
theorem editorInv_push {α : Type} (updater : List α → List α)
    (s : EditorState α) (h : editorInv s) :
    editorInv (pushHistory updater s) := by
  obtain ⟨hi, hL, hg⟩ := h
  have hlen_take : (s.history.take (s.index + 1)).length = s.index + 1 := by
    rw [List.length_take]
    omega
  have hlen_nh :
      (s.history.take (s.index + 1) ++ [updater s.annotations]).length =
        s.index + 2 := by
    rw [List.length_append, hlen_take]
    rfl
  rw [pushHistory]
  split
  · rename_i hgt
    rw [hlen_nh] at hgt
    have hidx : s.index = 49 := by
      simp only [MAX_HISTORY] at hgt hL
      omega
    refine ⟨?_, ?_, ?_⟩
    · show s.index <
        ((s.history.take (s.index + 1) ++ [updater s.annotations]).drop 1).length
      rw [List.length_drop, hlen_nh]
      omega
    · show ((s.history.take (s.index + 1) ++ [updater s.annotations]).drop 1).length
        ≤ MAX_HISTORY
      rw [List.length_drop, hlen_nh]
      simp only [MAX_HISTORY]
      omega
    · show ((s.history.take (s.index + 1) ++ [updater s.annotations]).drop 1).getD
        s.index [] = updater s.annotations
      rw [List.drop_append_of_le_length (by rw [hlen_take]; omega)]
      rw [List.getD_append_right _ _ _ _ (by rw [List.length_drop, hlen_take]; omega)]
      rw [List.length_drop, hlen_take]
      have : s.index - (s.index + 1 - 1) = 0 := by omega
      rw [this]
      rfl
  · rename_i hle
    rw [hlen_nh] at hle
    refine ⟨?_, ?_, ?_⟩
    · show (s.history.take (s.index + 1) ++ [updater s.annotations]).length - 1 <
        (s.history.take (s.index + 1) ++ [updater s.annotations]).length
      rw [hlen_nh]
      omega
    · show (s.history.take (s.index + 1) ++ [updater s.annotations]).length ≤
        MAX_HISTORY
      rw [hlen_nh]
      omega
    · show (s.history.take (s.index + 1) ++ [updater s.annotations]).getD
        ((s.history.take (s.index + 1) ++ [updater s.annotations]).length - 1)
        [] = updater s.annotations
      rw [hlen_nh]
      rw [List.getD_append_right _ _ _ _ (by rw [hlen_take]; omega)]
      rw [hlen_take]
      have : s.index + 2 - 1 - (s.index + 1) = 0 := by omega
      rw [this]
      rfl

/-- undo preserves the history invariant. -/
theorem editorInv_undo {α : Type} (s : EditorState α) (h : editorInv s) :
    editorInv (undoEditor s) := by
  obtain ⟨hi, hL, hg⟩ := h
  rw [undoEditor]
  split
  · exact ⟨by show s.index - 1 < s.history.length; omega, hL, rfl⟩
  · exact ⟨hi, hL, hg⟩

/-- redo preserves the history invariant. -/
theorem editorInv_redo {α : Type} (s : EditorState α) (h : editorInv s) :
    editorInv (redoEditor s) := by
  obtain ⟨hi, hL, hg⟩ := h
  rw [redoEditor]
  split
  · rename_i hlt
    exact ⟨hlt, hL, rfl⟩
  · exact ⟨hi, hL, hg⟩

/-- Every reachable editor history state satisfies the invariant. -/
theorem editorInv_of_reachable {α : Type} {s : EditorState α}
    (hr : EditorReachable s) : editorInv s := by
  induction hr with
  | init =>
    refine ⟨?_, ?_, rfl⟩
    · show 0 < 1
      omega
    · show 1 ≤ MAX_HISTORY
      simp [MAX_HISTORY]
  | push updater t _ ih => exact editorInv_push updater t ih
  | undo t _ ih => exact editorInv_undo t ih
  | redo t _ ih => exact editorInv_redo t ih

/-- C10: on every reachable annotation-history state whose index is
positive, undo immediately followed by redo restores exactly the
annotation list that was current before the undo. -/
theorem C10_undo_redo {α : Type} (s : EditorState α)
    (hr : EditorReachable s) (hi : 0 < s.index) :
    (redoEditor (undoEditor s)).annotations = s.annotations := by
  obtain ⟨h1, h2, h3⟩ := editorInv_of_reachable hr
  rw [undoEditor, if_pos hi, redoEditor]
  have hcond : s.index - 1 + 1 < s.history.length := by omega
  rw [if_pos hcond]
  show s.history.getD (s.index - 1 + 1) [] = s.annotations
  have heq : s.index - 1 + 1 = s.index := by omega
  rw [heq, h3]

/-- C10 witness: push one annotation from the initial state, then undo and
redo recover that annotation list. -/
theorem C10_undo_redo_witness :
    (redoEditor (undoEditor
        (pushHistory (fun l => 1 :: l) (initEditor (α := ℕ))))).annotations =
      (pushHistory (fun l => 1 :: l) (initEditor (α := ℕ))).annotations :=
  C10_undo_redo _ (EditorReachable.push _ _ EditorReachable.init) (by decide)

end Lovshot
